import Mathlib

/-!
Verification of the credit-form field-detection and form-filling core.

The definitions below are a shallow embedding of the Python sources
src/utils/cell_helpers.py, src/utils/label_detector.py,
src/services/excel_processor.py and src/services/form_filler.py.

Modelling conventions:
* a cell coordinate is a pair of 1-based row and column numbers;
* a merge region is its rectangular boundary quadruple, standing for the
  range string produced by openpyxl; the first component of the range
  string is the top-left coordinate of the region;
* a cell value is either a string or some other non-null payload
  (numbers, dates and so on, which the detector skips uniformly);
* reading an uninstantiated cell yields no value, matching openpyxl
  returning an empty cell for coordinates inside or outside the used
  range; a cell inside a merge region that is not the top-left of the
  region is a MergedCell, whose value reads as None and which cannot be
  written;
* lowercasing is ASCII lowercasing of each character.
-/

namespace CreditForm

/-- A 1-based (row, column) cell coordinate. -/
structure Coord where
  row : Nat
  col : Nat
deriving DecidableEq, Repr

/-- A rectangular merge region, the boundary quadruple that
openpyxl.utils.range_boundaries extracts from a range string. -/
structure MergeRange where
  minRow : Nat
  minCol : Nat
  maxRow : Nat
  maxCol : Nat
deriving DecidableEq, Repr

/-- Top-left coordinate of a merge region: the first component of its
range string. -/
def MergeRange.topLeft (r : MergeRange) : Coord :=
  ⟨r.minRow, r.minCol⟩

/-- Containment of a coordinate in a merge region, as tested by
find_field_cell after range_boundaries. -/
def MergeRange.containsCoord (r : MergeRange) (c : Coord) : Bool :=
  decide (r.minRow ≤ c.row) && decide (c.row ≤ r.maxRow) &&
    decide (r.minCol ≤ c.col) && decide (c.col ≤ r.maxCol)

/-- A cell value: a string, or any other non-null payload. -/
inductive CVal where
  | str (s : String)
  | other
deriving DecidableEq, Repr

/-- A worksheet: stored cell values plus the merge regions. -/
structure Sheet where
  cells : List (Coord × CVal)
  merges : List MergeRange
deriving DecidableEq, Repr

/-- Raw stored value at a coordinate (None when absent). -/
def lookupVal (s : Sheet) (c : Coord) : Option CVal :=
  (s.cells.find? (fun p => p.1 == c)).map (fun p => p.2)

/-- is_merged_cell_but_not_top_left: the cell at this coordinate is an
openpyxl MergedCell, i.e. it lies in a merge region without being the
top-left of that region. -/
def isPlaceholder (merges : List MergeRange) (c : Coord) : Bool :=
  merges.any (fun r => r.containsCoord c && !(r.topLeft == c))

/-- is_top_left_of_merged: the coordinate equals some value of the
merged map. -/
def is_top_left_of_merged (c : Coord) (mm : List (MergeRange × Coord)) : Bool :=
  mm.any (fun p => p.2 == c)

/-- get_cell_value: None for a MergedCell, the stored value otherwise. -/
def get_cell_value (s : Sheet) (c : Coord) : Option CVal :=
  if isPlaceholder s.merges c then none else lookupVal s c

/-- Drop leading whitespace characters. -/
def trimCharsLeft (l : List Char) : List Char :=
  l.dropWhile Char.isWhitespace

/-- Drop trailing whitespace characters. -/
def trimCharsRight (l : List Char) : List Char :=
  (l.reverse.dropWhile Char.isWhitespace).reverse

/-- str.strip: drop whitespace on both ends. -/
def strTrim (t : String) : String :=
  ⟨trimCharsLeft (trimCharsRight t.data)⟩

/-- str.rstrip: drop whitespace on the right end. -/
def strTrimRight (t : String) : String :=
  ⟨trimCharsRight t.data⟩

/-- str.startswith for a single candidate. -/
def strStartsWith (t pre : String) : Bool :=
  pre.data.isPrefixOf t.data

/-- str.endswith for a single candidate. -/
def strEndsWith (t suf : String) : Bool :=
  suf.data.reverse.isPrefixOf t.data.reverse

/-- len of a string, in characters. -/
def strLen (t : String) : Nat :=
  t.data.length

/-- ASCII lowercasing of a string, modelling str.lower. -/
def lowerStr (t : String) : String :=
  ⟨t.data.map Char.toLower⟩

/-- Emptiness of a plain value: absent, or a whitespace-only string. -/
def valIsEmpty : Option CVal → Bool
  | none => true
  | some (.str t) => strTrim t == ""
  | some .other => false

/-- is_cell_empty: a MergedCell, or an absent value, or a
whitespace-only string. -/
def is_cell_empty (s : Sheet) (c : Coord) : Bool :=
  isPlaceholder s.merges c || valIsEmpty (lookupVal s c)

/-! ### Label detection (src/utils/label_detector.py with the
keyword list and thresholds of src/config.py) -/

/-- The fixed keyword list of LabelDetectionConfig. -/
def keywords : List String :=
  ["nombre", "dirección", "teléfono", "telefono", "email", "correo", "fecha",
   "código", "codigo", "actividad", "representante", "razón", "razon", "social",
   "nit", "rfc", "curp", "ciudad", "estado", "país", "pais", "cp", "código postal",
   "banco", "cuenta", "clabe", "swift", "iban", "moneda", "monto", "importe",
   "apellido", "paterno", "materno", "nacimiento", "edad", "género", "genero",
   "ocupación", "ocupacion", "profesión", "profesion", "empresa", "puesto",
   "documento", "identificación", "identificacion", "pasaporte", "licencia",
   "contacto", "emergencia", "parentesco", "beneficiario", "titular",
   "firma", "fecha de", "lugar de", "hora", "folio", "referencia", "número", "numero"]

def min_label_length : Nat := 2
def max_label_length_with_colon : Nat := 100
def max_label_length_without_colon : Nat := 40
def min_left_cell_text_length : Nat := 10

/-- One character list occurs contiguously inside another. -/
def listInfixOf : List Char → List Char → Bool
  | needle, [] => needle.isEmpty
  | needle, h :: t => needle.isPrefixOf (h :: t) || listInfixOf needle t

/-- One string occurs inside another, modelling the Python in operator
on strings. -/
def strContains (hay needle : String) : Bool :=
  listInfixOf needle.data hay.data

/-- text.rstrip().endswith of a colon. -/
def rstripEndsColon (t : String) : Bool :=
  strEndsWith (strTrimRight t) ":"

/-- Some keyword occurs in the lowercased text. -/
def hasKeyword (lower : String) : Bool :=
  keywords.any (fun kw => strContains lower kw)

/-- The text contains a decimal digit somewhere (re.search of one or
more digits). -/
def hasDigit (t : String) : Bool :=
  t.data.any Char.isDigit

/-- The first character is a digit. -/
def firstIsDigit (t : String) : Bool :=
  match t.data with
  | [] => false
  | c :: _ => c.isDigit

/-- The last character is a digit. -/
def lastIsDigit (t : String) : Bool :=
  match t.data.getLast? with
  | some c => c.isDigit
  | none => false

/-- Three or more consecutive digits occur (re.search of a run of at
least three digits). -/
def hasThreeConsecDigits : List Char → Bool
  | a :: b :: c :: rest =>
      (a.isDigit && b.isDigit && c.isDigit) || hasThreeConsecDigits (b :: c :: rest)
  | _ => false

/-- The text contains an at sign. -/
def hasAtSign (t : String) : Bool :=
  t.data.contains '@'

/-- looks_like_label: the label heuristic of src/utils/label_detector.py. -/
def looks_like_label (text0 : String) : Bool :=
  if text0 == "" then false
  else
    let text := strTrim text0
    if strLen text < min_label_length then false
    else
      let lower := lowerStr text
      let endsColon := rstripEndsColon text
      let hasKw := hasKeyword lower
      if !(endsColon || hasKw) then false
      else if endsColon then
        if strLen text > max_label_length_with_colon then false
        else if hasAtSign text &&
            !(["email", "correo", "mail"].any (fun kw => strContains lower kw)) then false
        else if strStartsWith lower "http" || strStartsWith lower "www" then false
        else true
      else
        if strLen text > max_label_length_without_colon then false
        else if hasDigit text && !(firstIsDigit text) && !(lastIsDigit text) then false
        else if hasAtSign text && !(strContains lower "email") &&
            !(strContains lower "correo") then false
        else if strStartsWith lower "http" || strStartsWith lower "www" then false
        else if hasThreeConsecDigits text.data then false
        else true

/-! ### Field-cell resolution (ExcelProcessor.find_field_cell) -/

/-- A target for a label: a single coordinate, or a whole merge region
(the range strings returned by find_field_cell contain a colon exactly
when they denote a region). -/
inductive Target where
  | single (c : Coord)
  | range (r : MergeRange)
deriving DecidableEq, Repr

/-- The top-left coordinate of a target: the part of the range string
before the colon, or the coordinate itself. -/
def targetTopLeft : Target → Coord
  | .single c => c
  | .range r => r.topLeft

/-- Whether the target denotes a merge region (its string contains a
colon), as computed by FormField post-init. -/
def Target.isMergedT : Target → Bool
  | .single _ => false
  | .range _ => true

/-- build_merged_map: each merge region of the worksheet mapped to its
top-left coordinate. -/
def build_merged_map (s : Sheet) : List (MergeRange × Coord) :=
  s.merges.map (fun r => (r, r.topLeft))

/-- The body of one direction probe in find_field_cell: scan the merged
map for the first region containing the candidate; if its mapped
top-left is empty the region is the target, otherwise the scan breaks
out; in either remaining case the candidate cell itself is the target
when is_cell_empty holds of it. -/
def probe_direction (s : Sheet) (mm : List (MergeRange × Coord)) (c : Coord) :
    Option Target :=
  match mm.find? (fun p => p.1.containsCoord c) with
  | some (r, tl) =>
      if is_cell_empty s tl then some (.range r)
      else if is_cell_empty s c then some (.single c)
      else none
  | none =>
      if is_cell_empty s c then some (.single c) else none

/-- The direction loop of find_field_cell over the fixed offset list:
skip candidates falling before row or column 1, return the first
direction whose probe yields a target. -/
def tryDirections (s : Sheet) (mm : List (MergeRange × Coord)) (row col : Nat) :
    List (Int × Int) → Option Target
  | [] => none
  | (dr, dc) :: rest =>
      let fieldRow : Int := (row : Int) + dr
      let fieldCol : Int := (col : Int) + dc
      if fieldRow < 1 || fieldCol < 1 then tryDirections s mm row col rest
      else
        match probe_direction s mm ⟨fieldRow.toNat, fieldCol.toNat⟩ with
        | some t => some t
        | none => tryDirections s mm row col rest

/-- find_field_cell: resolve the cell that should receive the value of
a label cell, probing right, below, then left. -/
def find_field_cell (s : Sheet) (mm : List (MergeRange × Coord))
    (labelCell : Coord) : Option Target :=
  if isPlaceholder s.merges labelCell then none
  else if is_top_left_of_merged labelCell mm then none
  else tryDirections s mm labelCell.row labelCell.col [(0, 1), (1, 0), (0, -1)]

/-! ### The detection scan (ExcelProcessor.detect_fields) -/

/-- The accumulator of the scan: the ordered label-to-target mapping
(all_potential_fields) and the set of claimed top-left coordinates
(seen_coordinates). -/
structure ScanState where
  fields : List (String × Target)
  seen : List Coord
deriving DecidableEq, Repr

/-- Top-left coordinate of an accumulated entry. -/
def entryTTL (p : String × Target) : Coord :=
  targetTopLeft p.2

/-- The final accept step of detect_fields: record the label unless the
exact label string is already mapped, and mark the top-left as seen. -/
def insertIfFresh (st : ScanState) (label : String) (target : Target) : ScanState :=
  if st.fields.any (fun p => p.1 == label) then st
  else
    { fields := st.fields ++ [(label, target)],
      seen :=
        if st.seen.contains (targetTopLeft target) then st.seen
        else targetTopLeft target :: st.seen }

/-- The deduplication step of detect_fields: when the top-left was
already claimed, look up the first existing entry with that top-left; a
colon-terminated newcomer displaces a colon-less holder, anything else
is discarded; then fall through to the freshness-guarded insert. -/
def dedupInsert (st : ScanState) (label : String) (target : Target) : ScanState :=
  let ttl := targetTopLeft target
  if st.seen.contains ttl then
    match st.fields.find? (fun p => entryTTL p == ttl) with
    | some ex =>
        if rstripEndsColon label && !(rstripEndsColon ex.1) then
          insertIfFresh { st with fields := st.fields.filter (fun p => !(p.1 == ex.1)) }
            label target
        else st
    | none => insertIfFresh st label target
  else insertIfFresh st label target

/-- The left-neighbour suppression of detect_fields: a candidate in
column 2 or later whose left neighbour holds a non-empty string longer
than ten characters once trimmed is rejected unless the label is
colon-terminated. -/
def leftNeighborBlocks (s : Sheet) (c : Coord) (label : String) : Bool :=
  if c.col > 1 then
    match get_cell_value s ⟨c.row, c.col - 1⟩ with
    | some (.str lv) =>
        if lv == "" then false
        else decide (strLen (strTrim lv) > min_left_cell_text_length) && !(rstripEndsColon label)
    | _ => false
  else false

/-- One cell of the detection scan: the candidate filters of
detect_fields followed by target resolution, the defensive emptiness
re-check of the top-left of the target, and the deduplicating insert. -/
def processCell (s : Sheet) (mm : List (MergeRange × Coord))
    (st : ScanState) (c : Coord) : ScanState :=
  match get_cell_value s c with
  | some (.str v) =>
      if v == "" then st
      else if isPlaceholder s.merges c then st
      else if is_top_left_of_merged c mm then st
      else
        let label := strTrim v
        if !(looks_like_label label) then st
        else if leftNeighborBlocks s c label then st
        else
          match find_field_cell s mm c with
          | none => st
          | some target =>
              if !(is_cell_empty s (targetTopLeft target)) then st
              else dedupInsert st label target
  | _ => st

/-- The last row of the used range (at least 1, as in openpyxl). -/
def Sheet.maxRowUsed (s : Sheet) : Nat :=
  max (s.cells.foldl (fun m p => max m p.1.row) 1)
    (s.merges.foldl (fun m r => max m r.maxRow) 1)

/-- The last column of the used range (at least 1, as in openpyxl). -/
def Sheet.maxColUsed (s : Sheet) : Nat :=
  max (s.cells.foldl (fun m p => max m p.1.col) 1)
    (s.merges.foldl (fun m r => max m r.maxCol) 1)

/-- The coordinates visited by iter_rows, in row-major order. -/
def scanCoords (s : Sheet) : List Coord :=
  ((List.range' 1 s.maxRowUsed).map (fun r =>
    (List.range' 1 s.maxColUsed).map (fun c => (⟨r, c⟩ : Coord)))).flatten

/-- FormField of src/domain/models.py. -/
structure FormField where
  label : String
  target_coordinate : Target
  is_merged : Bool
deriving DecidableEq, Repr

/-- FieldDetectionResult of src/domain/models.py. -/
structure FieldDetectionResult where
  fields : List (String × FormField)
  merged_map : List (MergeRange × Coord)
deriving DecidableEq, Repr

/-- detect_fields: build the merged map, run the scan over every cell
of the used range in row-major order, and package the accumulated
mapping as FormField records. -/
def detect_fields (s : Sheet) : FieldDetectionResult :=
  let mm := build_merged_map s
  let st := (scanCoords s).foldl (processCell s mm) ⟨[], []⟩
  { fields := st.fields.map (fun p =>
      (p.1, { label := p.1, target_coordinate := p.2, is_merged := p.2.isMergedT })),
    merged_map := mm }

/-! ### The form filler (src/services/form_filler.py and
get_writable_cell of src/utils/cell_helpers.py) -/

/-- A value supplied for a label: null, or its final text form (strings
stay themselves; numbers and structured values arrive as the text that
str or json.dumps produces for them). -/
inductive DVal where
  | vnull
  | vstr (s : String)
deriving DecidableEq, Repr

/-- The value normalisation of fill: null becomes the empty string,
text stays itself. -/
def normalizeValue : DVal → String
  | .vnull => ""
  | .vstr s => s

/-- Lookup of a label in the supplied data mapping. -/
def lookupData (data : List (String × DVal)) (label : String) : Option DVal :=
  (data.find? (fun p => p.1 == label)).map (fun p => p.2)

/-- get_writable_cell: resolve a target to the single authoritative
writable coordinate, preferring the merged map, then the live merge
regions, then the nominal coordinate. -/
def get_writable_cell (merges : List MergeRange) (mm : List (MergeRange × Coord)) :
    Target → Coord
  | .range r =>
      match mm.find? (fun p => p.1 == r) with
      | some p => p.2
      | none =>
          match merges.find? (fun mr => mr == r) with
          | some mr => ⟨mr.minRow, mr.minCol⟩
          | none => r.topLeft
  | .single c =>
      if isPlaceholder merges c then
        match mm.find? (fun p => p.1.containsCoord c) with
        | some p => p.2
        | none =>
            match merges.find? (fun mr => mr.containsCoord c) with
            | some mr => ⟨mr.minRow, mr.minCol⟩
            | none => c
      else c

/-- Replace the first stored entry for a coordinate, or append one. -/
def updateCells : List (Coord × CVal) → Coord → CVal → List (Coord × CVal)
  | [], c, v => [(c, v)]
  | p :: rest, c, v =>
      if p.1 == c then (c, v) :: rest else p :: updateCells rest c v

/-- Assigning a value to a writable cell. -/
def writeCell (s : Sheet) (c : Coord) (v : String) : Sheet :=
  { s with cells := updateCells s.cells c (.str v) }

/-- The quote character, used in the diagnostic strings of fill. -/
def sq : String :=
  String.singleton (Char.ofNat 39)

/-- The diagnostic recorded when a label is absent from the data. -/
def missingMsg (label : String) : String :=
  sq ++ label ++ sq ++ " not found in data"

/-- The diagnostic recorded when assigning to the resolved cell raises,
which happens exactly when that cell is a read-only MergedCell. -/
def fillErrMsg (label : String) : String :=
  "Error filling " ++ sq ++ label ++ sq ++ ": MergedCell value is read-only"

/-- The running state of the fill loop. -/
structure FillState where
  sheet : Sheet
  filled : Nat
  skipped : Nat
  errors : List String
deriving DecidableEq, Repr

/-- One iteration of the fill loop: a label absent from the data is
diagnosed and skipped; otherwise the target is resolved, the resolved
cell is re-checked for emptiness (occupied cells are skipped silently),
a read-only MergedCell makes the assignment raise (diagnosed, skipped),
and an empty writable cell receives the normalised value. -/
def fillStep (mm : List (MergeRange × Coord)) (data : List (String × DVal))
    (st : FillState) (e : String × FormField) : FillState :=
  match lookupData data e.1 with
  | none =>
      { st with skipped := st.skipped + 1, errors := st.errors ++ [missingMsg e.1] }
  | some v =>
      let value := normalizeValue v
      let cell := get_writable_cell st.sheet.merges mm e.2.target_coordinate
      if !(is_cell_empty st.sheet cell) then { st with skipped := st.skipped + 1 }
      else if isPlaceholder st.sheet.merges cell then
        { st with skipped := st.skipped + 1, errors := st.errors ++ [fillErrMsg e.1] }
      else
        { st with sheet := writeCell st.sheet cell value, filled := st.filled + 1 }

/-- FillResult of src/domain/models.py. -/
structure FillResult where
  filled_count : Nat
  skipped_count : Nat
  errors : List String
deriving DecidableEq, Repr

/-- The fill loop over a list of fields from a running state. -/
def fillLoop (mm : List (MergeRange × Coord)) (data : List (String × DVal))
    (st : FillState) (fs : List (String × FormField)) : FillState :=
  fs.foldl (fillStep mm data) st

/-- fill: run the fill loop over the detected fields in detection order
and report the counts, the diagnostics, and the written worksheet. -/
def fill (s : Sheet) (dr : FieldDetectionResult) (data : List (String × DVal)) :
    FillResult × Sheet :=
  let final := fillLoop dr.merged_map data ⟨s, 0, 0, []⟩ dr.fields
  (⟨final.filled, final.skipped, final.errors⟩, final.sheet)

/-! ### Concrete worksheets used by counterexamples and witnesses -/

/-- A worksheet whose cell A1 holds the string Email: and whose cell B1
holds the string x@y.com, with no merge regions. -/
def sheetEmailOccupied : Sheet :=
  ⟨[(⟨1, 1⟩, .str "Email:"), (⟨1, 2⟩, .str "x@y.com")], []⟩

/-- A worksheet with the merge region B1:B2 whose top-left B1 holds the
string x; the cell A2 is free to act as a label cell whose right-hand
probe lands on the placeholder B2. -/
def sheetMergedOccupied : Sheet :=
  ⟨[(⟨1, 2⟩, .str "x")], [⟨1, 2, 2, 2⟩]⟩

/-- A worksheet whose cell A1 holds the string Nombre: and nothing
else. -/
def sheetNombre : Sheet :=
  ⟨[(⟨1, 1⟩, .str "Nombre:")], []⟩

/-- A data mapping sending the label Nombre: to the empty string. -/
def dataEmptyVal : List (String × DVal) :=
  [("Nombre:", .vstr "")]

/-- A data mapping sending the label Nombre: to the text Juan. -/
def dataJuan : List (String × DVal) :=
  [("Nombre:", .vstr "Juan")]

/-! ### Claim C1 -/

/-- C1 counterexample: on sheetMergedOccupied the label cell A2 probes
right into B2, which lies inside the merge region B1:B2 whose mapped
top-left B1 is non-empty; the claim says this direction yields no
target, yet find_field_cell returns the coordinate B2, which is a
non-top-left placeholder cell of that occupied merge region. -/
theorem claim_C1_counterexample :
    find_field_cell sheetMergedOccupied (build_merged_map sheetMergedOccupied) ⟨2, 1⟩ =
        some (Target.single ⟨2, 2⟩) ∧
    (build_merged_map sheetMergedOccupied).find?
        (fun p => p.1.containsCoord ⟨2, 2⟩) = some (⟨1, 2, 2, 2⟩, ⟨1, 2⟩) ∧
    is_cell_empty sheetMergedOccupied ⟨1, 2⟩ = false ∧
    isPlaceholder sheetMergedOccupied.merges ⟨2, 2⟩ = true := by
  refine ⟨?_, ?_, ?_, ?_⟩ <;> decide

/-- C1 amended: when the candidate coordinate of a direction lies
inside a merge region of the merged map whose mapped top-left cell is
non-empty, the direction never yields a merge region as target, but it
does fall through to the single-cell emptiness check at the candidate
coordinate: the probe returns the candidate coordinate itself exactly
when is_cell_empty holds of it, which in particular happens when the
candidate is a non-top-left placeholder cell of the occupied region. -/
theorem claim_C1_amended (s : Sheet) (mm : List (MergeRange × Coord)) (c : Coord)
    (r : MergeRange) (tl : Coord)
    (hfind : mm.find? (fun p => p.1.containsCoord c) = some (r, tl))
    (hocc : is_cell_empty s tl = false) :
    probe_direction s mm c =
      (if is_cell_empty s c then some (Target.single c) else none) ∧
    ∀ r' : MergeRange, probe_direction s mm c ≠ some (Target.range r') := by
  have hp : probe_direction s mm c =
      (if is_cell_empty s c then some (Target.single c) else none) := by
    unfold probe_direction
    rw [hfind]
    simp [hocc]
  refine ⟨hp, fun r' => ?_⟩
  rw [hp]
  by_cases h : is_cell_empty s c = true
  · simp [h]
  · simp [h]

/-- C1 witness: the amended statement instantiated on
sheetMergedOccupied at the candidate B2 inside the occupied region
B1:B2. -/
theorem claim_C1_witness :
    (build_merged_map sheetMergedOccupied).find?
        (fun p => p.1.containsCoord ⟨2, 2⟩) = some (⟨1, 2, 2, 2⟩, ⟨1, 2⟩) ∧
    is_cell_empty sheetMergedOccupied ⟨1, 2⟩ = false ∧
    (probe_direction sheetMergedOccupied (build_merged_map sheetMergedOccupied) ⟨2, 2⟩ =
        (if is_cell_empty sheetMergedOccupied ⟨2, 2⟩ then some (Target.single ⟨2, 2⟩)
         else none) ∧
      ∀ r' : MergeRange,
        probe_direction sheetMergedOccupied (build_merged_map sheetMergedOccupied) ⟨2, 2⟩ ≠
          some (Target.range r')) :=
  ⟨by decide, by decide,
   claim_C1_amended sheetMergedOccupied (build_merged_map sheetMergedOccupied)
     ⟨2, 2⟩ ⟨1, 2, 2, 2⟩ ⟨1, 2⟩ (by decide) (by decide)⟩

/-! ### Claim C2 -/

/-- C2 counterexample: on the sheet with A1 holding Email: and B1
holding x@y.com, detect_fields does detect a field with label Email:,
contrary to the claim that no field is detected for A1. -/
theorem claim_C2_counterexample :
    ((detect_fields sheetEmailOccupied).fields.map Prod.fst).contains "Email:" = true := by
  decide

/-- C2 amended: with A1 holding Email: and B1 holding x@y.com, the
occupied right-hand cell B1 is rejected, but the probe falls back to
the next direction and detect_fields detects exactly one field, with
label Email: and the empty cell A2 below the label as target. -/
theorem claim_C2_amended :
    detect_fields sheetEmailOccupied =
      { fields := [("Email:",
          { label := "Email:", target_coordinate := Target.single ⟨2, 1⟩,
            is_merged := false })],
        merged_map := [] } := by
  decide

/-! ### Claim C8 -/

/-- C8: detection determinism. The scan of detect_fields performs only
reads of the worksheet (the only cells it materialises while probing
hold no value and are skipped by every filter), so the embedding is a
pure function of the sheet and two successive calls on the unchanged
sheet return the same labels, the same targets and the same insertion
order. -/
theorem claim_C8_determinism (s : Sheet) :
    (detect_fields s).fields = (detect_fields s).fields ∧
    (detect_fields s).merged_map = (detect_fields s).merged_map :=
  ⟨rfl, rfl⟩

/-! ### Claim C4 -/

/-- The text has a digit at some position other than its first and its
last character. -/
def hasMidDigit (t : String) : Bool :=
  (List.range t.data.length).any (fun i =>
    (t.data.getD i ' ').isDigit && !(i == 0) && !(i == t.data.length - 1))

/-- C4 counterexample: the trimmed text holding a one, a space, the
keyword nombre, a space, a two, a space and the letter a has a keyword
match, does not end with a colon, and contains a digit (the two) at a
position that is neither first nor last; the claim requires
looks_like_label to return false on it, yet it returns true, because
the source rejects mid-string digits only when the first and the last
character are both non-digits and here the first character is the
digit one. -/
theorem claim_C4_counterexample :
    looks_like_label "1 nombre 2 a" = true ∧
    rstripEndsColon "1 nombre 2 a" = false ∧
    hasKeyword (lowerStr "1 nombre 2 a") = true ∧
    hasMidDigit "1 nombre 2 a" = true ∧
    strTrim "1 nombre 2 a" = "1 nombre 2 a" := by
  refine ⟨?_, ?_, ?_, ?_, ?_⟩ <;> decide

/-- C4 amended: for trimmed text with a keyword match that does not end
with a colon, looks_like_label returns false whenever the text contains
a digit and neither its first nor its last character is a digit. -/
theorem claim_C4_amended (t : String) (htrim : strTrim t = t)
    (hkw : hasKeyword (lowerStr t) = true)
    (hcolon : rstripEndsColon t = false)
    (hdig : hasDigit t = true)
    (hfirst : firstIsDigit t = false)
    (hlast : lastIsDigit t = false) :
    looks_like_label t = false := by
  unfold looks_like_label
  rw [htrim]
  simp only [hcolon, hkw, hdig, hfirst, hlast, Bool.false_or, Bool.not_true,
    Bool.not_false, Bool.and_true, Bool.true_and, if_false]
  split
  · rfl
  · split
    · rfl
    · simp

/-- C4 witness: the amended statement instantiated on the trimmed text
holding the letter a, the keyword nombre, the digit one and the letter
b, separated by spaces. -/
theorem claim_C4_witness :
    strTrim "a nombre 1 b" = "a nombre 1 b" ∧
    hasKeyword (lowerStr "a nombre 1 b") = true ∧
    rstripEndsColon "a nombre 1 b" = false ∧
    hasDigit "a nombre 1 b" = true ∧
    firstIsDigit "a nombre 1 b" = false ∧
    lastIsDigit "a nombre 1 b" = false ∧
    looks_like_label "a nombre 1 b" = false :=
  ⟨by decide, by decide, by decide, by decide, by decide, by decide,
   claim_C4_amended "a nombre 1 b" (by decide) (by decide) (by decide) (by decide)
     (by decide) (by decide)⟩

/-! ### Bookkeeping lemmas about the fill loop -/

/-- One fill step splits into the step from a zeroed state plus the
counts and diagnostics accumulated so far. -/
theorem fillStep_shift (mm : List (MergeRange × Coord)) (data : List (String × DVal))
    (st : FillState) (e : String × FormField) :
    fillStep mm data st e =
      { sheet := (fillStep mm data ⟨st.sheet, 0, 0, []⟩ e).sheet,
        filled := st.filled + (fillStep mm data ⟨st.sheet, 0, 0, []⟩ e).filled,
        skipped := st.skipped + (fillStep mm data ⟨st.sheet, 0, 0, []⟩ e).skipped,
        errors := st.errors ++ (fillStep mm data ⟨st.sheet, 0, 0, []⟩ e).errors } := by
  unfold fillStep
  cases h : lookupData data e.1
  · simp
  · simp only []
    split_ifs <;> simp

/-- The fill loop from an arbitrary state splits into the loop from a
zeroed state over the same sheet plus the accumulated counts and
diagnostics. -/
theorem fillLoop_shift (mm : List (MergeRange × Coord)) (data : List (String × DVal))
    (fs : List (String × FormField)) :
    ∀ st : FillState,
      fillLoop mm data st fs =
        { sheet := (fillLoop mm data ⟨st.sheet, 0, 0, []⟩ fs).sheet,
          filled := st.filled + (fillLoop mm data ⟨st.sheet, 0, 0, []⟩ fs).filled,
          skipped := st.skipped + (fillLoop mm data ⟨st.sheet, 0, 0, []⟩ fs).skipped,
          errors := st.errors ++ (fillLoop mm data ⟨st.sheet, 0, 0, []⟩ fs).errors } := by
  induction fs with
  | nil =>
      intro st
      cases st
      simp [fillLoop]
  | cons e fs ih =>
      intro st
      show fillLoop mm data (fillStep mm data st e) fs = _
      rw [ih (fillStep mm data st e)]
      conv_rhs =>
        rw [show fillLoop mm data ⟨st.sheet, 0, 0, []⟩ (e :: fs) =
              fillLoop mm data (fillStep mm data ⟨st.sheet, 0, 0, []⟩ e) fs from rfl]
        rw [ih (fillStep mm data ⟨st.sheet, 0, 0, []⟩ e)]
      rw [fillStep_shift mm data st e]
      simp [Nat.add_assoc, List.append_assoc]

/-- Every iteration of the fill loop adds exactly one to exactly one of
the two counters. -/
theorem fillStep_counts (mm : List (MergeRange × Coord)) (data : List (String × DVal))
    (st : FillState) (e : String × FormField) :
    (fillStep mm data st e).filled + (fillStep mm data st e).skipped =
      st.filled + st.skipped + 1 := by
  unfold fillStep
  cases h : lookupData data e.1
  · simp; omega
  · simp only []
    split_ifs <;> simp <;> omega

/-- The two counters of the fill loop add up to the starting counters
plus the number of processed fields. -/
theorem fillLoop_counts (mm : List (MergeRange × Coord)) (data : List (String × DVal))
    (fs : List (String × FormField)) :
    ∀ st : FillState,
      (fillLoop mm data st fs).filled + (fillLoop mm data st fs).skipped =
        st.filled + st.skipped + fs.length := by
  induction fs with
  | nil => intro st; simp [fillLoop]
  | cons e fs ih =>
      intro st
      have hcons : fillLoop mm data st (e :: fs) =
          fillLoop mm data (fillStep mm data st e) fs := rfl
      rw [hcons, ih (fillStep mm data st e)]
      have := fillStep_counts mm data st e
      simp only [List.length_cons]
      omega

/-! ### Claim C10 -/

/-- C10: for every detection result and every data mapping, the filled
and skipped counters of fill partition the fields: their sum equals the
number of fields of the detection result, every field contributing to
exactly one of the two on every path. -/
theorem claim_C10_partition (s : Sheet) (dr : FieldDetectionResult)
    (data : List (String × DVal)) :
    (fill s dr data).1.filled_count + (fill s dr data).1.skipped_count =
      dr.fields.length := by
  have h := fillLoop_counts dr.merged_map data dr.fields ⟨s, 0, 0, []⟩
  unfold fill
  simpa using h

/-! ### Substring facts for the diagnostics -/

/-- A list is a Boolean prefix of itself followed by anything. -/
theorem isPrefixOf_append_self (n s : List Char) : n.isPrefixOf (n ++ s) = true := by
  induction n with
  | nil => simp [List.isPrefixOf]
  | cons c n ih => simp [List.isPrefixOf, ih]

/-- The needle occurs in any haystack that embeds it between two other
pieces. -/
theorem listInfixOf_append (n p s : List Char) : listInfixOf n (p ++ (n ++ s)) = true := by
  induction p with
  | nil =>
      cases hn : n with
      | nil => cases s <;> simp [listInfixOf, List.isPrefixOf]
      | cons c n' =>
          show listInfixOf (c :: n') ((c :: n') ++ s) = true
          rw [List.cons_append]
          unfold listInfixOf
          rw [← List.cons_append]
          simp [isPrefixOf_append_self]
  | cons x p ih =>
      rw [List.cons_append]
      unfold listInfixOf
      simp [ih]

/-- A string embedded between two other strings occurs in the
concatenation. -/
theorem strContains_embedded (pre mid post : String) :
    strContains (pre ++ (mid ++ post)) mid = true := by
  unfold strContains
  have h : (pre ++ (mid ++ post)).data = pre.data ++ (mid.data ++ post.data) := by
    simp [String.data_append]
  rw [h]
  exact listInfixOf_append _ _ _

/-- The missing-label diagnostic mentions the label. -/
theorem missingMsg_mentions (lbl : String) :
    strContains (missingMsg lbl) lbl = true := by
  have h : missingMsg lbl = sq ++ (lbl ++ (sq ++ " not found in data")) := by
    unfold missingMsg
    rw [String.append_assoc, String.append_assoc]
  rw [h]
  exact strContains_embedded _ _ _

/-! ### Claim C9 -/

/-- C9: a field whose label is absent from the data mapping makes fill
append the missing-label diagnostic, which mentions the label, and adds
one to the skipped counter; no exception escapes and the fields after
it are still processed, the final counts and diagnostics being composed
of the contribution of the fields before it, the one skip, and the
contribution of the fields after it. -/
theorem claim_C9_missing_label (s : Sheet) (mm : List (MergeRange × Coord))
    (data : List (String × DVal)) (pre post : List (String × FormField))
    (lbl : String) (fld : FormField)
    (hmiss : lookupData data lbl = none) :
    (fill s ⟨pre ++ (lbl, fld) :: post, mm⟩ data).1 =
      { filled_count := (fillLoop mm data ⟨s, 0, 0, []⟩ pre).filled +
          (fillLoop mm data ⟨(fillLoop mm data ⟨s, 0, 0, []⟩ pre).sheet, 0, 0, []⟩ post).filled,
        skipped_count := (fillLoop mm data ⟨s, 0, 0, []⟩ pre).skipped + 1 +
          (fillLoop mm data ⟨(fillLoop mm data ⟨s, 0, 0, []⟩ pre).sheet, 0, 0, []⟩ post).skipped,
        errors := (fillLoop mm data ⟨s, 0, 0, []⟩ pre).errors ++
          missingMsg lbl ::
            (fillLoop mm data ⟨(fillLoop mm data ⟨s, 0, 0, []⟩ pre).sheet, 0, 0, []⟩ post).errors } ∧
    missingMsg lbl ∈ (fill s ⟨pre ++ (lbl, fld) :: post, mm⟩ data).1.errors ∧
    strContains (missingMsg lbl) lbl = true := by
  have hstep : ∀ st : FillState, fillStep mm data st (lbl, fld) =
      { st with skipped := st.skipped + 1, errors := st.errors ++ [missingMsg lbl] } := by
    intro st
    unfold fillStep
    simp [hmiss]
  have hres : (fill s ⟨pre ++ (lbl, fld) :: post, mm⟩ data).1 =
      { filled_count := (fillLoop mm data ⟨s, 0, 0, []⟩ pre).filled +
          (fillLoop mm data ⟨(fillLoop mm data ⟨s, 0, 0, []⟩ pre).sheet, 0, 0, []⟩ post).filled,
        skipped_count := (fillLoop mm data ⟨s, 0, 0, []⟩ pre).skipped + 1 +
          (fillLoop mm data ⟨(fillLoop mm data ⟨s, 0, 0, []⟩ pre).sheet, 0, 0, []⟩ post).skipped,
        errors := (fillLoop mm data ⟨s, 0, 0, []⟩ pre).errors ++
          missingMsg lbl ::
            (fillLoop mm data ⟨(fillLoop mm data ⟨s, 0, 0, []⟩ pre).sheet, 0, 0, []⟩ post).errors } := by
    unfold fill
    simp only []
    rw [show fillLoop mm data ⟨s, 0, 0, []⟩ (pre ++ (lbl, fld) :: post) =
          fillLoop mm data
            (fillStep mm data (fillLoop mm data ⟨s, 0, 0, []⟩ pre) (lbl, fld)) post by
      unfold fillLoop
      rw [List.foldl_append, List.foldl_cons]]
    rw [hstep (fillLoop mm data ⟨s, 0, 0, []⟩ pre)]
    rw [fillLoop_shift mm data post
      { fillLoop mm data ⟨s, 0, 0, []⟩ pre with
          skipped := (fillLoop mm data ⟨s, 0, 0, []⟩ pre).skipped + 1,
          errors := (fillLoop mm data ⟨s, 0, 0, []⟩ pre).errors ++ [missingMsg lbl] }]
    simp
  refine ⟨hres, ?_, missingMsg_mentions lbl⟩
  rw [hres]
  simp

/-- A field record for the label Teléfono: targeting B1, used by the
missing-data witness. -/
def fld9 : FormField :=
  ⟨"Teléfono:", Target.single ⟨1, 2⟩, false⟩

/-- C9 witness: the missing-label statement instantiated on the sheet
with A1 holding Nombre:, one detected field labelled Teléfono:, and a
data mapping that lacks that key. -/
theorem claim_C9_witness :
    lookupData dataJuan "Teléfono:" = none ∧
    ((fill sheetNombre ⟨[] ++ ("Teléfono:", fld9) :: [], []⟩ dataJuan).1 =
      { filled_count := (fillLoop [] dataJuan ⟨sheetNombre, 0, 0, []⟩ []).filled +
          (fillLoop [] dataJuan
            ⟨(fillLoop [] dataJuan ⟨sheetNombre, 0, 0, []⟩ []).sheet, 0, 0, []⟩ []).filled,
        skipped_count := (fillLoop [] dataJuan ⟨sheetNombre, 0, 0, []⟩ []).skipped + 1 +
          (fillLoop [] dataJuan
            ⟨(fillLoop [] dataJuan ⟨sheetNombre, 0, 0, []⟩ []).sheet, 0, 0, []⟩ []).skipped,
        errors := (fillLoop [] dataJuan ⟨sheetNombre, 0, 0, []⟩ []).errors ++
          missingMsg "Teléfono:" ::
            (fillLoop [] dataJuan
              ⟨(fillLoop [] dataJuan ⟨sheetNombre, 0, 0, []⟩ []).sheet, 0, 0, []⟩ []).errors } ∧
      missingMsg "Teléfono:" ∈
        (fill sheetNombre ⟨[] ++ ("Teléfono:", fld9) :: [], []⟩ dataJuan).1.errors ∧
      strContains (missingMsg "Teléfono:") "Teléfono:" = true) :=
  ⟨by decide,
   claim_C9_missing_label sheetNombre [] dataJuan [] [] "Teléfono:" fld9 (by decide)⟩

/-! ### Frame lemmas for written cells -/

/-- Updating one coordinate leaves the lookup at any other coordinate
unchanged. -/
theorem find?_updateCells_ne (l : List (Coord × CVal)) (c c' : Coord) (v : CVal)
    (h : c' ≠ c) :
    (updateCells l c v).find? (fun p => p.1 == c') = l.find? (fun p => p.1 == c') := by
  induction l with
  | nil =>
      have hcc : (c == c') = false := by
        simp only [beq_eq_false_iff_ne]
        exact fun hc => h hc.symm
      simp [updateCells, List.find?, hcc]
  | cons p rest ih =>
      by_cases hp : p.1 = c
      · have : (p.1 == c) = true := by simpa using hp
        simp only [updateCells, this, if_true]
        have h1 : (c == c') = false := by
          simp only [beq_eq_false_iff_ne]
          exact fun hc => h hc.symm
        have h2 : (p.1 == c') = false := by
          rw [hp]
          exact h1
        simp [List.find?, h1, h2]
      · have : (p.1 == c) = false := by simpa using hp
        simp only [updateCells, this, if_false]
        by_cases hq : p.1 = c'
        · have hq' : (p.1 == c') = true := by simpa using hq
          simp [List.find?, hq']
        · have hq' : (p.1 == c') = false := by simpa using hq
          simp [List.find?, hq', ih]

/-- A value written at a coordinate is there afterwards. -/
theorem lookupVal_writeCell_self (s : Sheet) (c : Coord) (v : String) :
    lookupVal (writeCell s c v) c = some (.str v) := by
  show ((updateCells s.cells c (.str v)).find? (fun p => p.1 == c)).map _ = _
  have : ∀ l : List (Coord × CVal), ∀ w : CVal,
      (updateCells l c w).find? (fun p => p.1 == c) = some (c, w) := by
    intro l
    induction l with
    | nil => intro w; simp [updateCells, List.find?]
    | cons p rest ih =>
        intro w
        by_cases hp : p.1 = c
        · have : (p.1 == c) = true := by simpa using hp
          simp [updateCells, this, List.find?]
        · have : (p.1 == c) = false := by simpa using hp
          simp [updateCells, this, List.find?, ih]
  rw [this s.cells (.str v)]
  rfl

/-- Writes do not change the value stored at another coordinate. -/
theorem lookupVal_writeCell_ne (s : Sheet) (c c' : Coord) (v : String)
    (h : c' ≠ c) :
    lookupVal (writeCell s c v) c' = lookupVal s c' := by
  show ((updateCells s.cells c (.str v)).find? (fun p => p.1 == c')).map _ = _
  rw [find?_updateCells_ne s.cells c c' (.str v) h]
  rfl

/-- Writes do not change the merge regions. -/
theorem writeCell_merges (s : Sheet) (c : Coord) (v : String) :
    (writeCell s c v).merges = s.merges := rfl

/-- One fill step does not change the merge regions. -/
theorem fillStep_merges (mm : List (MergeRange × Coord)) (data : List (String × DVal))
    (st : FillState) (e : String × FormField) :
    (fillStep mm data st e).sheet.merges = st.sheet.merges := by
  unfold fillStep
  cases h : lookupData data e.1
  · rfl
  · simp only []
    split_ifs <;> rfl

/-- The fill loop does not change the merge regions. -/
theorem fillLoop_merges (mm : List (MergeRange × Coord)) (data : List (String × DVal))
    (fs : List (String × FormField)) :
    ∀ st : FillState, (fillLoop mm data st fs).sheet.merges = st.sheet.merges := by
  induction fs with
  | nil => intro st; rfl
  | cons e fs ih =>
      intro st
      show (fillLoop mm data (fillStep mm data st e) fs).sheet.merges = _
      rw [ih (fillStep mm data st e), fillStep_merges]

/-- One fill step leaves every cell holding a non-empty value
untouched: writes only land on cells that pass the emptiness check. -/
theorem fillStep_preserves_value (mm : List (MergeRange × Coord))
    (data : List (String × DVal)) (st : FillState) (e : String × FormField)
    (c : Coord) (v : CVal)
    (hv : lookupVal st.sheet c = some v) (hne : valIsEmpty (some v) = false) :
    lookupVal (fillStep mm data st e).sheet c = some v := by
  unfold fillStep
  cases h : lookupData data e.1
  · simpa using hv
  · simp only []
    split_ifs with h1 h2
    · simpa using hv
    · simpa using hv
    · have hemp : is_cell_empty st.sheet
          (get_writable_cell st.sheet.merges mm e.2.target_coordinate) = true := by
        revert h1
        cases is_cell_empty st.sheet
          (get_writable_cell st.sheet.merges mm e.2.target_coordinate) <;> simp
      by_cases hc : c = get_writable_cell st.sheet.merges mm e.2.target_coordinate
      · exfalso
        rw [← hc] at hemp h2
        unfold is_cell_empty at hemp
        rw [hv] at hemp
        rw [Bool.or_eq_true] at hemp
        cases hemp with
        | inl hp => exact h2 hp
        | inr hval =>
            rw [hval] at hne
            exact Bool.noConfusion hne
      · simpa [lookupVal_writeCell_ne _ _ _ _ hc] using hv

/-- The fill loop leaves every cell holding a non-empty value
untouched. -/
theorem fillLoop_preserves_value (mm : List (MergeRange × Coord))
    (data : List (String × DVal)) (fs : List (String × FormField)) :
    ∀ (st : FillState) (c : Coord) (v : CVal),
      lookupVal st.sheet c = some v → valIsEmpty (some v) = false →
      lookupVal (fillLoop mm data st fs).sheet c = some v := by
  induction fs with
  | nil => intro st c v hv _; simpa [fillLoop] using hv
  | cons e fs ih =>
      intro st c v hv hne
      show lookupVal (fillLoop mm data (fillStep mm data st e) fs).sheet c = some v
      exact ih _ c v (fillStep_preserves_value mm data st e c v hv hne) hne

/-! ### Claim C6 -/

/-- C6: fill never overwrites existing content: every cell whose value
before the call is present and not a whitespace-only string holds
exactly the same value after the call, because a value is written only
to a cell that passes the is_cell_empty check immediately before the
write. -/
theorem claim_C6_no_overwrite (s : Sheet) (dr : FieldDetectionResult)
    (data : List (String × DVal)) (c : Coord) (v : CVal)
    (hv : lookupVal s c = some v) (hne : valIsEmpty (some v) = false) :
    lookupVal (fill s dr data).2 c = some v := by
  unfold fill
  exact fillLoop_preserves_value dr.merged_map data dr.fields ⟨s, 0, 0, []⟩ c v hv hne

/-- C6 witness: a sheet whose cell A1 holds the word keep, with one
field of the detection result targeting A1 and data supplying a value
for it; the fill pass leaves the word keep in place. -/
theorem claim_C6_witness :
    lookupVal ⟨[(⟨1, 1⟩, .str "keep")], []⟩ ⟨1, 1⟩ = some (.str "keep") ∧
    valIsEmpty (some (.str "keep")) = false ∧
    lookupVal
      (fill ⟨[(⟨1, 1⟩, .str "keep")], []⟩
        ⟨[("Nombre:", ⟨"Nombre:", Target.single ⟨1, 1⟩, false⟩)], []⟩
        [("Nombre:", .vstr "Juan")]).2 ⟨1, 1⟩ = some (.str "keep") :=
  ⟨by decide, by decide,
   claim_C6_no_overwrite ⟨[(⟨1, 1⟩, .str "keep")], []⟩
     ⟨[("Nombre:", ⟨"Nombre:", Target.single ⟨1, 1⟩, false⟩)], []⟩
     [("Nombre:", .vstr "Juan")] ⟨1, 1⟩ (.str "keep") (by decide) (by decide)⟩

/-! ### Claim C3: idempotence of fill -/

/-- A field is settled with respect to a sheet when a second fill pass
is certain to skip it: its label is absent from the data, or its
resolved cell is a read-only placeholder, or its resolved cell is
occupied. -/
def fieldSettled (mm : List (MergeRange × Coord)) (data : List (String × DVal))
    (s : Sheet) (e : String × FormField) : Prop :=
  lookupData data e.1 = none ∨
  isPlaceholder s.merges (get_writable_cell s.merges mm e.2.target_coordinate) = true ∨
  is_cell_empty s (get_writable_cell s.merges mm e.2.target_coordinate) = false

/-- A non-empty cell stays non-empty across one fill step. -/
theorem fillStep_keeps_nonempty (mm : List (MergeRange × Coord))
    (data : List (String × DVal)) (st : FillState) (e : String × FormField)
    (c : Coord) (h : is_cell_empty st.sheet c = false) :
    is_cell_empty (fillStep mm data st e).sheet c = false := by
  unfold is_cell_empty at h ⊢
  rw [fillStep_merges]
  rw [Bool.or_eq_false_iff] at h
  obtain ⟨h1, h2⟩ := h
  rw [Bool.or_eq_false_iff]
  refine ⟨h1, ?_⟩
  cases hv : lookupVal st.sheet c with
  | none => rw [hv] at h2; simp [valIsEmpty] at h2
  | some v =>
      rw [hv] at h2
      rw [fillStep_preserves_value mm data st e c v hv h2]
      exact h2

/-- A non-empty cell stays non-empty across the fill loop. -/
theorem fillLoop_keeps_nonempty (mm : List (MergeRange × Coord))
    (data : List (String × DVal)) (fs : List (String × FormField)) :
    ∀ (st : FillState) (c : Coord), is_cell_empty st.sheet c = false →
      is_cell_empty (fillLoop mm data st fs).sheet c = false := by
  induction fs with
  | nil => intro st c h; exact h
  | cons x fs ih =>
      intro st c h
      exact ih (fillStep mm data st x) c (fillStep_keeps_nonempty mm data st x c h)

/-- A settled field stays settled across the fill loop: the merge
regions never change and occupied cells never empty out. -/
theorem fillLoop_keeps_settled (mm : List (MergeRange × Coord))
    (data : List (String × DVal)) (fs : List (String × FormField))
    (st : FillState) (e : String × FormField)
    (h : fieldSettled mm data st.sheet e) :
    fieldSettled mm data (fillLoop mm data st fs).sheet e := by
  unfold fieldSettled at h ⊢
  rw [fillLoop_merges]
  rcases h with h | h | h
  · exact Or.inl h
  · exact Or.inr (Or.inl h)
  · exact Or.inr (Or.inr (fillLoop_keeps_nonempty mm data fs st _ h))

/-- When every supplied value keeps a non-whitespace character after
trimming, one fill step settles its own field: afterwards the label is
missing, or the resolved cell is a placeholder, or it is occupied
(freshly written or already so). -/
theorem fillStep_settles (mm : List (MergeRange × Coord))
    (data : List (String × DVal)) (st : FillState) (e : String × FormField)
    (hdata : ∀ p ∈ data, (strTrim (normalizeValue p.2) == "") = false) :
    fieldSettled mm data (fillStep mm data st e).sheet e := by
  unfold fieldSettled fillStep
  cases h : lookupData data e.1 with
  | none => exact Or.inl rfl
  | some v =>
      simp only []
      split_ifs with h1 h2
      · refine Or.inr (Or.inr ?_)
        have hne : is_cell_empty st.sheet
            (get_writable_cell st.sheet.merges mm e.2.target_coordinate) = false := by
          revert h1
          cases is_cell_empty st.sheet
            (get_writable_cell st.sheet.merges mm e.2.target_coordinate) <;> simp
        simpa using hne
      · exact Or.inr (Or.inl (by simpa using h2))
      · refine Or.inr (Or.inr ?_)
        have hp : ∃ p ∈ data, p.2 = v := by
          unfold lookupData at h
          cases hf : data.find? (fun p => p.1 == e.1) with
          | none => rw [hf] at h; cases h
          | some p =>
              rw [hf] at h
              refine ⟨p, List.mem_of_find?_eq_some hf, ?_⟩
              simpa using h
        obtain ⟨p, hpmem, hpv⟩ := hp
        have hval : (strTrim (normalizeValue v) == "") = false := by
          rw [← hpv]
          exact hdata p hpmem
        have hlook := lookupVal_writeCell_self st.sheet
          (get_writable_cell st.sheet.merges mm e.2.target_coordinate)
          (normalizeValue v)
        unfold is_cell_empty
        rw [Bool.or_eq_false_iff]
        constructor
        · simpa [writeCell_merges] using h2
        · simpa [writeCell_merges, hlook, valIsEmpty] using hval

/-- After a full fill pass with such data, every field of the list is
settled in the resulting sheet. -/
theorem fillLoop_settles_all (mm : List (MergeRange × Coord))
    (data : List (String × DVal))
    (hdata : ∀ p ∈ data, (strTrim (normalizeValue p.2) == "") = false)
    (fs : List (String × FormField)) :
    ∀ (st : FillState) (e : String × FormField), e ∈ fs →
      fieldSettled mm data (fillLoop mm data st fs).sheet e := by
  induction fs with
  | nil => intro st e he; cases he
  | cons x fs ih =>
      intro st e he
      have hcons : fillLoop mm data st (x :: fs) =
          fillLoop mm data (fillStep mm data st x) fs := rfl
      rw [hcons]
      rcases List.mem_cons.mp he with rfl | he'
      · exact fillLoop_keeps_settled mm data fs (fillStep mm data st e) e
          (fillStep_settles mm data st e hdata)
      · exact ih (fillStep mm data st x) e he'

/-- Over a list of fields all settled in the starting sheet, the fill
loop writes nothing: the sheet is unchanged, the filled counter is
unchanged, and every field is counted as skipped. -/
theorem fillLoop_settled_run (mm : List (MergeRange × Coord))
    (data : List (String × DVal)) (fs : List (String × FormField)) :
    ∀ st : FillState, (∀ e ∈ fs, fieldSettled mm data st.sheet e) →
      (fillLoop mm data st fs).sheet = st.sheet ∧
      (fillLoop mm data st fs).filled = st.filled ∧
      (fillLoop mm data st fs).skipped = st.skipped + fs.length := by
  induction fs with
  | nil => intro st _; exact ⟨rfl, rfl, by simp [fillLoop]⟩
  | cons x fs ih =>
      intro st h
      have hx := h x (List.mem_cons_self x fs)
      have hstep : (fillStep mm data st x).sheet = st.sheet ∧
          (fillStep mm data st x).filled = st.filled ∧
          (fillStep mm data st x).skipped = st.skipped + 1 := by
        unfold fillStep
        cases hlook : lookupData data x.1 with
        | none => exact ⟨rfl, rfl, rfl⟩
        | some v =>
            simp only []
            split_ifs with h1 h2
            · exact ⟨rfl, rfl, rfl⟩
            · exact ⟨rfl, rfl, rfl⟩
            · exfalso
              unfold fieldSettled at hx
              rcases hx with hmiss | hph | hne
              · rw [hlook] at hmiss; cases hmiss
              · exact h2 hph
              · have hemp : is_cell_empty st.sheet
                    (get_writable_cell st.sheet.merges mm x.2.target_coordinate) = true := by
                  revert h1
                  cases is_cell_empty st.sheet
                    (get_writable_cell st.sheet.merges mm x.2.target_coordinate) <;> simp
                rw [hne] at hemp
                cases hemp
      have hcons : fillLoop mm data st (x :: fs) =
          fillLoop mm data (fillStep mm data st x) fs := rfl
      rw [hcons]
      have h' : ∀ e ∈ fs, fieldSettled mm data (fillStep mm data st x).sheet e := by
        intro e he
        rw [hstep.1]
        exact h e (List.mem_cons_of_mem x he)
      obtain ⟨hs, hf, hk⟩ := ih (fillStep mm data st x) h'
      refine ⟨by rw [hs, hstep.1], by rw [hf, hstep.2.1], ?_⟩
      rw [hk, hstep.2.2]
      simp only [List.length_cons]
      omega

/-- C3 counterexample: on the sheet with A1 holding Nombre:, detection
targets the empty cell B1; filling with the empty string for that label
writes a value that is still whitespace-only, so a second identical
fill run fills again: its filled count is 1, not 0 as the claim
requires. -/
theorem claim_C3_counterexample :
    (fill (fill sheetNombre (detect_fields sheetNombre) dataEmptyVal).2
        (detect_fields sheetNombre) dataEmptyVal).1.filled_count = 1 ∧
    (fill (fill sheetNombre (detect_fields sheetNombre) dataEmptyVal).2
        (detect_fields sheetNombre) dataEmptyVal).1.filled_count ≠ 0 := by
  refine ⟨?_, ?_⟩ <;> decide

/-- C3 amended: fill is idempotent provided every supplied value
normalises to a string that keeps a non-whitespace character: then a
second run of fill with the same sheet, detection result and data fills
nothing and skips every field. -/
theorem claim_C3_amended (s : Sheet) (dr : FieldDetectionResult)
    (data : List (String × DVal))
    (hdata : ∀ p ∈ data, (strTrim (normalizeValue p.2) == "") = false) :
    (fill (fill s dr data).2 dr data).1.filled_count = 0 ∧
    (fill (fill s dr data).2 dr data).1.skipped_count = dr.fields.length := by
  unfold fill
  simp only []
  have hset : ∀ e ∈ dr.fields,
      fieldSettled dr.merged_map data
        ((⟨(fillLoop dr.merged_map data ⟨s, 0, 0, []⟩ dr.fields).sheet, 0, 0, []⟩ :
          FillState)).sheet e := by
    intro e he
    exact fillLoop_settles_all dr.merged_map data hdata dr.fields ⟨s, 0, 0, []⟩ e he
  obtain ⟨hs, hf, hk⟩ := fillLoop_settled_run dr.merged_map data dr.fields
    ⟨(fillLoop dr.merged_map data ⟨s, 0, 0, []⟩ dr.fields).sheet, 0, 0, []⟩ hset
  exact ⟨by simpa using hf, by simpa using hk⟩

/-- C3 witness: the amended statement instantiated on the sheet with A1
holding Nombre:, its own detection result, and the data sending that
label to the text Juan. -/
theorem claim_C3_witness :
    (∀ p ∈ dataJuan, (strTrim (normalizeValue p.2) == "") = false) ∧
    (fill (fill sheetNombre (detect_fields sheetNombre) dataJuan).2
        (detect_fields sheetNombre) dataJuan).1.filled_count = 0 ∧
    (fill (fill sheetNombre (detect_fields sheetNombre) dataJuan).2
        (detect_fields sheetNombre) dataJuan).1.skipped_count =
      (detect_fields sheetNombre).fields.length :=
  ⟨by decide, claim_C3_amended sheetNombre (detect_fields sheetNombre) dataJuan (by decide)⟩

/-! ### Claim C5 -/

/-- C5: colon precedence in deduplication. Two label candidates whose
targets share the same top-left coordinate, exactly one of them
colon-terminated after right-trimming, leave the scan state with the
colon-terminated label mapped to its target and the other discarded,
whichever of the two the row-major scan feeds first into the
deduplicating insert of detect_fields. -/
theorem claim_C5_colon_precedence (l1 l2 : String) (t1 t2 : Target)
    (h1 : rstripEndsColon l1 = true) (h2 : rstripEndsColon l2 = false)
    (ht : targetTopLeft t1 = targetTopLeft t2) :
    (dedupInsert (dedupInsert ⟨[], []⟩ l1 t1) l2 t2).fields = [(l1, t1)] ∧
    (dedupInsert (dedupInsert ⟨[], []⟩ l2 t2) l1 t1).fields = [(l1, t1)] := by
  have hfirst1 : dedupInsert ⟨[], []⟩ l1 t1 =
      ⟨[(l1, t1)], [targetTopLeft t1]⟩ := by
    unfold dedupInsert insertIfFresh
    simp
  have hfirst2 : dedupInsert ⟨[], []⟩ l2 t2 =
      ⟨[(l2, t2)], [targetTopLeft t2]⟩ := by
    unfold dedupInsert insertIfFresh
    simp
  constructor
  · rw [hfirst1]
    unfold dedupInsert
    simp [entryTTL, ← ht, h1, h2]
  · rw [hfirst2]
    unfold dedupInsert insertIfFresh
    simp [entryTTL, ← ht, h1, h2]

/-- C5 witness: the colon-terminated label Nombre: and the bare label
Nombre competing for the single target B1, in both orders. -/
theorem claim_C5_witness :
    rstripEndsColon "Nombre:" = true ∧
    rstripEndsColon "Nombre" = false ∧
    targetTopLeft (Target.single ⟨1, 2⟩) = targetTopLeft (Target.single ⟨1, 2⟩) ∧
    ((dedupInsert (dedupInsert ⟨[], []⟩ "Nombre:" (Target.single ⟨1, 2⟩)) "Nombre"
        (Target.single ⟨1, 2⟩)).fields = [("Nombre:", Target.single ⟨1, 2⟩)] ∧
      (dedupInsert (dedupInsert ⟨[], []⟩ "Nombre" (Target.single ⟨1, 2⟩)) "Nombre:"
        (Target.single ⟨1, 2⟩)).fields = [("Nombre:", Target.single ⟨1, 2⟩)]) :=
  ⟨by decide, by decide, rfl,
   claim_C5_colon_precedence "Nombre:" "Nombre" (Target.single ⟨1, 2⟩)
     (Target.single ⟨1, 2⟩) (by decide) (by decide) rfl⟩

/-! ### Claim C7 -/

/-- The invariant of the detection scan state: the top-left coordinates
of the accumulated targets are pairwise distinct, the labels are
pairwise distinct, and every accumulated top-left has been marked as
seen. -/
def ScanInv (st : ScanState) : Prop :=
  (st.fields.map entryTTL).Nodup ∧
  (st.fields.map Prod.fst).Nodup ∧
  ∀ p ∈ st.fields, st.seen.contains (entryTTL p) = true

/-- The freshness-guarded insert preserves the invariant when the
inserted top-left is not yet among the accumulated ones. -/
theorem insertIfFresh_inv (st : ScanState) (label : String) (target : Target)
    (hInv : ScanInv st)
    (hTtl : targetTopLeft target ∉ st.fields.map entryTTL) :
    ScanInv (insertIfFresh st label target) := by
  obtain ⟨hnt, hnl, hsn⟩ := hInv
  unfold insertIfFresh
  split_ifs with hany hseen
  · exact ⟨hnt, hnl, hsn⟩
  · refine ⟨?_, ?_, ?_⟩
    · rw [List.map_append, List.nodup_append]
      refine ⟨hnt, by simp, ?_⟩
      intro a ha hb
      simp only [List.map_cons, List.map_nil, List.mem_singleton] at hb
      rw [hb] at ha
      exact hTtl (by simpa [entryTTL] using ha)
    · rw [List.map_append, List.nodup_append]
      refine ⟨hnl, by simp, ?_⟩
      intro a ha hb
      simp only [List.map_cons, List.map_nil, List.mem_singleton] at hb
      rw [List.mem_map] at ha
      obtain ⟨p, hp, hpa⟩ := ha
      apply absurd hany
      simp only [not_not, List.any_eq_true]
      exact ⟨p, hp, by simp [hpa, hb]⟩
    · intro p hp
      rcases List.mem_append.mp hp with hp | hp
      · exact hsn p hp
      · simp only [List.mem_singleton] at hp
        rw [hp]
        simpa [entryTTL] using hseen
  · refine ⟨?_, ?_, ?_⟩
    · rw [List.map_append, List.nodup_append]
      refine ⟨hnt, by simp, ?_⟩
      intro a ha hb
      simp only [List.map_cons, List.map_nil, List.mem_singleton] at hb
      rw [hb] at ha
      exact hTtl (by simpa [entryTTL] using ha)
    · rw [List.map_append, List.nodup_append]
      refine ⟨hnl, by simp, ?_⟩
      intro a ha hb
      simp only [List.map_cons, List.map_nil, List.mem_singleton] at hb
      rw [List.mem_map] at ha
      obtain ⟨p, hp, hpa⟩ := ha
      apply absurd hany
      simp only [not_not, List.any_eq_true]
      exact ⟨p, hp, by simp [hpa, hb]⟩
    · intro p hp
      rcases List.mem_append.mp hp with hp | hp
      · have := hsn p hp
        simp only [List.contains_cons]
        rw [this]
        simp
      · simp only [List.mem_singleton] at hp
        rw [hp]
        simp [entryTTL]

/-- The deduplicating insert preserves the invariant. -/
theorem dedupInsert_inv (st : ScanState) (label : String) (target : Target)
    (hInv : ScanInv st) : ScanInv (dedupInsert st label target) := by
  unfold dedupInsert
  dsimp only
  split_ifs with hseen
  · cases hfind : st.fields.find? (fun p => entryTTL p == targetTopLeft target) with
    | none =>
        apply insertIfFresh_inv _ _ _ hInv
        intro hmem
        rw [List.mem_map] at hmem
        obtain ⟨p, hp, hpe⟩ := hmem
        exact List.find?_eq_none.mp hfind p hp (by simp [hpe])
    | some ex =>
        dsimp only
        split_ifs with hcolon
        · have hexmem : ex ∈ st.fields := List.mem_of_find?_eq_some hfind
          have hexttl : entryTTL ex = targetTopLeft target := by
            have := List.find?_some hfind
            simpa using this
          have hsub : (st.fields.filter (fun p => !(p.1 == ex.1))).Sublist st.fields :=
            List.filter_sublist _
          have hInv' : ScanInv ⟨st.fields.filter (fun p => !(p.1 == ex.1)), st.seen⟩ := by
            refine ⟨?_, ?_, ?_⟩
            · exact List.Nodup.sublist (hsub.map entryTTL) hInv.1
            · exact List.Nodup.sublist (hsub.map Prod.fst) hInv.2.1
            · intro p hp
              exact hInv.2.2 p (List.mem_of_mem_filter hp)
          apply insertIfFresh_inv _ _ _ hInv'
          intro hmem
          rw [List.mem_map] at hmem
          obtain ⟨p, hp, hpe⟩ := hmem
          have hpfields : p ∈ st.fields := List.mem_of_mem_filter hp
          have hpeq : p = ex :=
            List.inj_on_of_nodup_map hInv.1 hpfields hexmem (by rw [hpe, hexttl])
          rw [hpeq] at hp
          have := List.of_mem_filter hp
          simp at this
        · exact hInv
  · apply insertIfFresh_inv _ _ _ hInv
    intro hmem
    rw [List.mem_map] at hmem
    obtain ⟨p, hp, hpe⟩ := hmem
    have := hInv.2.2 p hp
    rw [hpe] at this
    exact hseen this

/-- Every step of the detection scan preserves the invariant. -/
theorem processCell_inv (s : Sheet) (mm : List (MergeRange × Coord))
    (st : ScanState) (c : Coord) (hInv : ScanInv st) :
    ScanInv (processCell s mm st c) := by
  unfold processCell
  dsimp only
  split
  · split_ifs
    any_goals exact hInv
    split
    · exact hInv
    · split_ifs
      · exact hInv
      · exact dedupInsert_inv _ _ _ hInv
  · exact hInv

/-- The scan as a whole preserves the invariant. -/
theorem foldl_processCell_inv (s : Sheet) (mm : List (MergeRange × Coord))
    (l : List Coord) :
    ∀ st : ScanState, ScanInv st → ScanInv (l.foldl (processCell s mm) st) := by
  induction l with
  | nil => intro st h; exact h
  | cons c l ih => intro st h; exact ih _ (processCell_inv s mm st c h)

/-- C7: invariant of every detection result: the map sending each
detected field to the top-left coordinate of its target is injective;
the list of those top-left coordinates has no duplicate, so each
top-left is referenced by at most one field. -/
theorem claim_C7_target_injective (s : Sheet) :
    ((detect_fields s).fields.map
      (fun p => targetTopLeft p.2.target_coordinate)).Nodup := by
  unfold detect_fields
  simp only []
  rw [List.map_map]
  have hInv : ScanInv
      ((scanCoords s).foldl (processCell s (build_merged_map s)) ⟨[], []⟩) :=
    foldl_processCell_inv s (build_merged_map s) (scanCoords s) ⟨[], []⟩
      ⟨List.nodup_nil, List.nodup_nil, fun p hp => absurd hp (List.not_mem_nil p)⟩
  have hcomp : ((fun p : String × FormField => targetTopLeft p.2.target_coordinate) ∘
      (fun p : String × Target =>
        (p.1, FormField.mk p.1 p.2 p.2.isMergedT))) = entryTTL := by
    funext p
    rfl
  rw [hcomp]
  exact hInv.1

end CreditForm
